import Mathlib

/-!
Verification development for the Notion-content pipeline
(property extractors, content transformers, content loader,
asset cache, backup system).  Every definition below is a shallow
embedding of the corresponding TypeScript source function.
-/

namespace Pipeline

/-! ## JavaScript string primitives used by the source -/

/-- Whitespace characters recognised by the JS regex `\s` (ASCII subset;
the source only ever meets ASCII whitespace). -/
def jsIsWs (c : Char) : Bool :=
  c = ' ' || c = '\t' || c = '\n' || c = '\r' || c = '\x0b' || c = '\x0c'

/-- Core of `String.prototype.split(/\s+/)`: split a character list on
maximal whitespace runs, keeping empty boundary segments exactly as JS
does (`"".split` gives `[""]`, `" a "` gives `["", "a", ""]`). The flag
records whether the scan is inside a whitespace run, `cur` accumulates
the current segment reversed. -/
def wsSplitAux : Bool → List Char → List Char → List (List Char)
  | _, [], cur => [cur.reverse]
  | true, c :: rest, cur =>
    if jsIsWs c then wsSplitAux true rest cur
    else wsSplitAux false rest [c]
  | false, c :: rest, cur =>
    if jsIsWs c then cur.reverse :: wsSplitAux true rest []
    else wsSplitAux false rest (c :: cur)

/-- JS `s.split(/\s+/)` as a list of strings. -/
def wsSplit (s : String) : List String :=
  (wsSplitAux false s.data []).map List.asString

/-- JS `s.toLowerCase()` (character-wise, sufficient for the data involved). -/
def jsToLower (s : String) : String :=
  (s.data.map Char.toLower).asString

/-- JS `s.startsWith(p)`. -/
def strStartsWith (s p : String) : Bool :=
  p.data.isPrefixOf s.data

/-- JS `s.endsWith(p)`. -/
def strEndsWith (s p : String) : Bool :=
  p.data.isSuffixOf s.data

/-- JS `s.substring(0, n)` / `s.slice(0, n)`. -/
def strTake (s : String) (n : Nat) : String :=
  (s.data.take n).asString

/-- JS `s.replace(/\s+/g, '-')`: every maximal whitespace run (wherever it
occurs in the string) becomes a single dash. -/
def jsReplaceWsDash (s : String) : String :=
  String.intercalate "-" (wsSplit s)

/-- Truthiness filter for an optional JS string: `undefined`, `null` and
`''` are falsy. -/
def strTruthy : Option String → Option String
  | some s => if s = "" then none else some s
  | none => none

/-- JS `a || b` on optional strings (used for URL fallback chains). -/
def jsOrStr (a b : Option String) : Option String :=
  match strTruthy a with
  | some s => some s
  | none => b

/-! ## JavaScript value model for the raw Notion property bags

The property extractors in `transformers.ts` take `any`-typed bags, so we
model raw JavaScript values, member access (which throws a `TypeError` on
`null`/`undefined` receivers), truthiness, and the array methods used. -/

/-- Raw JavaScript value (the shapes reachable through the Notion API and
arbitrary malformed variants). -/
inductive JsVal where
  | undef
  | null
  | jbool (b : Bool)
  | jnum (n : Int)
  | jstr (s : String)
  | jarr (xs : List JsVal)
  | jobj (fields : List (String × JsVal))
deriving Repr, Inhabited

namespace JsVal

/-- JS truthiness. -/
def truthy : JsVal → Bool
  | undef => false
  | null => false
  | jbool b => b
  | jnum n => n ≠ 0
  | jstr s => s ≠ ""
  | jarr _ => true
  | jobj _ => true

/-- JS member access `v.k`: throws `TypeError` when the receiver is
`null`/`undefined`; yields `undefined` for a missing key; arrays expose
`length`. -/
def getField : JsVal → String → Except String JsVal
  | undef, _ => .error "TypeError"
  | null, _ => .error "TypeError"
  | jobj fs, k =>
      .ok (match fs.find? (fun kv => kv.1 = k) with
           | some kv => kv.2
           | none => undef)
  | jarr xs, k => .ok (if k = "length" then jnum xs.length else undef)
  | _, _ => .ok undef

/-- JS index access `v[0]`: throws on `null`/`undefined`, yields the
element for arrays, `undefined` otherwise. -/
def getIndex : JsVal → Nat → Except String JsVal
  | undef, _ => .error "TypeError"
  | null, _ => .error "TypeError"
  | jarr xs, i => .ok ((xs.get? i).getD undef)
  | _, _ => .ok undef

/-- JS `ToString` on the values reachable in `join` calls. -/
def jsToString : JsVal → String
  | undef => "undefined"
  | null => "null"
  | jbool b => if b then "true" else "false"
  | jnum n => toString n
  | jstr s => s
  | jarr _ => ""
  | jobj _ => "[object Object]"

/-- JS `Array.prototype.join('')` over already-computed element values
(`null`/`undefined` elements render as the empty string). -/
def joinEmpty (xs : List JsVal) : String :=
  String.join (xs.map (fun v => match v with
    | undef => ""
    | null => ""
    | v => jsToString v))

/-- JS `v.map(cb)`: throws `TypeError` unless the receiver is an array. -/
def asArr : JsVal → Except String (List JsVal)
  | jarr xs => .ok xs
  | _ => .error "TypeError"

/-- JS `a || b` on raw values. -/
def jsOr (a b : JsVal) : JsVal :=
  if truthy a then a else b

end JsVal

open JsVal

/-- Reduction of `Except` bind on a success value. -/
@[simp]
theorem exceptBind_ok {ε α β : Type} (a : α) (f : α → Except ε β) :
    (Except.ok a >>= f) = f a := rfl

/-- Reduction of `Except` bind on an error value. -/
@[simp]
theorem exceptBind_err {ε α β : Type} (e : ε) (f : α → Except ε β) :
    ((Except.error e : Except ε α) >>= f) = .error e := rfl

/-- Reduction of `Except` map on a success value. -/
@[simp]
theorem exceptMap_ok {ε α β : Type} (f : α → β) (a : α) :
    (f <$> (Except.ok a : Except ε α)) = .ok (f a) := rfl

/-- Reduction of `Except` map on an error value. -/
@[simp]
theorem exceptMap_err {ε α β : Type} (f : α → β) (e : ε) :
    (f <$> (Except.error e : Except ε α)) = .error e := rfl

/-- Reduction of `pure` into the `Except` success constructor. -/
@[simp]
theorem exceptPure_eq {ε α : Type} (a : α) :
    (pure a : Except ε α) = .ok a := rfl

/-! ## Property extractors (`src/lib/transformers.ts`, lines 11–73) -/

/-- Embedding of `extractRichText`: join the `plain_text` of every
`rich_text` item; absent/falsy property or field gives `''`. -/
def extractRichText (property : JsVal) : Except String String := do
  if !property.truthy then return ""
  let rt ← property.getField "rich_text"
  if !rt.truthy then return ""
  let items ← rt.asArr
  let vals ← items.mapM (fun item => do
    let pt ← item.getField "plain_text"
    return jsOr pt (jstr ""))
  return joinEmpty vals

/-- Embedding of `extractTitle`: accept either a `title` or a `name`
array (most specific first), join the items' `plain_text`. -/
def extractTitle (property : JsVal) : Except String String := do
  if !property.truthy then return ""
  let t ← property.getField "title"
  let n ← property.getField "name"
  let titleArray := jsOr t (jsOr n (jarr []))
  let items ← titleArray.asArr
  let vals ← items.mapM (fun item => do
    let pt ← item.getField "plain_text"
    return jsOr pt (jstr ""))
  return joinEmpty vals

/-- Embedding of `extractMultiSelect`: the `name` of every
`multi_select` item; absent/falsy gives `[]`. -/
def extractMultiSelect (property : JsVal) : Except String (List JsVal) := do
  if !property.truthy then return []
  let ms ← property.getField "multi_select"
  if !ms.truthy then return []
  let items ← ms.asArr
  items.mapM (fun item => item.getField "name")

/-- Embedding of `extractSelect`: the selected `name` or `''`. -/
def extractSelect (property : JsVal) : Except String JsVal := do
  if !property.truthy then return jstr ""
  let s ← property.getField "select"
  if !s.truthy then return jstr ""
  let name ← s.getField "name"
  return jsOr name (jstr "")

/-- Embedding of `extractDate`: `date.start` truncated at the first `'T'`
(calendar-date granularity); absent/falsy gives `''`. -/
def extractDate (property : JsVal) : Except String String := do
  if !property.truthy then return ""
  let d ← property.getField "date"
  if !d.truthy then return ""
  let date ← d.getField "start"
  if date.truthy then
    match date with
    | jstr s => return (s.data.takeWhile (fun c => c ≠ 'T')).asString
    | _ => .error "TypeError"
  else
    return ""

/-- Embedding of `extractNumber`: absent, `null` or `undefined` gives
`0`; otherwise the stored value passes through unchanged. -/
def extractNumber (property : JsVal) : Except String JsVal := do
  if !property.truthy then return jnum 0
  let n ← property.getField "number"
  match n with
  | null => return jnum 0
  | undef => return jnum 0
  | n => return n

/-- Embedding of `extractFileUrl`: URL of the first entry of a `files`
list, looked up through the `external`/`file` tagged union; an absent or
empty list gives no URL. -/
def extractFileUrl (property : JsVal) : Except String (Option JsVal) := do
  if !property.truthy then return none
  let files ← property.getField "files"
  if !files.truthy then return none
  let len ← files.getField "length"
  let lenIsZero : Bool := match len with
    | jnum k => k == 0
    | _ => false
  if lenIsZero then return none
  let file ← files.getIndex 0
  let ty ← file.getField "type"
  let tyStr := match ty with
    | jstr s => some s
    | _ => none
  if tyStr = some "external" then
    let ex ← file.getField "external"
    let u ← ex.getField "url"
    return some u
  else if tyStr = some "file" then
    let f ← file.getField "file"
    let u ← f.getField "url"
    return some u
  else
    return none

/-! ## Typed Notion blocks

The transformers and the asset cache consume block trees whose payloads
have the shapes produced by the Notion API; optional fields model the
`?.` chains of the source. A block's payload object lives at the key
equal to the block's own `type` (`block[block.type]`); the `children`
field of that payload is kept as a separate component of the inductive
so the tree is a plain nested inductive. -/

/-- File reference `{ url }` inside a media payload. -/
structure FileRef where
  url : String
deriving DecidableEq, Repr

/-- One rich-text item; only `plain_text` is ever read. -/
structure RichItem where
  plain_text : Option String
deriving DecidableEq, Repr

/-- Non-recursive part of the payload object stored at `block[block.type]`:
its inner `type` tag, `rich_text`, `file`/`external` references and
`caption`. -/
structure PayloadData where
  ptype : Option String
  rich_text : Option (List RichItem)
  file : Option FileRef
  ext : Option FileRef
  caption : Option (List RichItem)
deriving DecidableEq, Repr

/-- A raw Notion block: `id`, discriminator `type`, the remote
`has_children` flag, the payload object at `block[block.type]` (absent if
that key is undefined) and that payload's `children` list (absent if the
payload declares none). -/
inductive NBlock where
  | mk (id : String) (btype : String) (has_children : Bool)
       (payload : Option PayloadData) (children : Option (List NBlock))

namespace NBlock

/-- Block identifier. -/
def bid : NBlock → String
  | mk i _ _ _ _ => i

/-- Block discriminator (`block.type`). -/
def btype : NBlock → String
  | mk _ t _ _ _ => t

/-- Remote has-children flag. -/
def hasChildren : NBlock → Bool
  | mk _ _ h _ _ => h

/-- Payload object at `block[block.type]`. -/
def payload : NBlock → Option PayloadData
  | mk _ _ _ p _ => p

/-- Children list stored inside the payload object. -/
def childrenField : NBlock → Option (List NBlock)
  | mk _ _ _ _ c => c

/-- JS `block[block.type]?.children`: undefined unless the payload object
exists. -/
def childrenAccess (b : NBlock) : Option (List NBlock) :=
  match b.payload with
  | none => none
  | some _ => b.childrenField

/-- JS `block.paragraph`: the payload object if this block's type is
`paragraph`, undefined otherwise. -/
def paragraphAccess (b : NBlock) : Option PayloadData :=
  if b.btype = "paragraph" then b.payload else none

end NBlock

/-- Join of a rich-text list: `items.map(i => i.plain_text || '').join('')`. -/
def richJoin (items : List RichItem) : String :=
  String.join (items.map (fun it => it.plain_text.getD ""))

/-- Paragraph text with the source's fallbacks:
`block.paragraph?.rich_text?.map(..).join('') || ''`. -/
def paragraphText (b : NBlock) : String :=
  match b.paragraphAccess with
  | none => ""
  | some p =>
    match p.rich_text with
    | none => ""
    | some items => richJoin items

/-- JS `Math.ceil(n / d)` on non-negative integers. -/
def jsCeilDiv (n d : Nat) : Nat :=
  (n + d - 1) / d

/-! ## Content transformers (`src/lib/transformers.ts`, lines 128–278) -/

/-- Article-specific derived fields. -/
structure ArticleData where
  excerpt : String
  readingTime : Nat
deriving DecidableEq, Repr

/-- Excerpt computation of `transformToArticleContent`: text of the first
paragraph-type block, truncated to 200 characters. -/
def articleExcerpt (blocks : List NBlock) : String :=
  match blocks.find? (fun b => b.btype = "paragraph") with
  | none => ""
  | some fp =>
    match fp.payload with
    | none => ""
    | some p =>
      let text := match p.rich_text with
        | none => ""
        | some items => richJoin items
      strTake text 200

/-- Word-count computation of `transformToArticleContent`: for every
paragraph-type block, add the length of `text.split(/\s+/)` (which is the
token count plus one segment per boundary whitespace run, and 1 for empty
text — exactly the JS behaviour). -/
def articleWordCount (blocks : List NBlock) : Nat :=
  (blocks.filter (fun b => b.btype = "paragraph")).foldl
    (fun count b => count + (wsSplit (paragraphText b)).length) 0

/-- Embedding of `transformToArticleContent` (variant-specific fields). -/
def transformToArticleContent (blocks : List NBlock) : ArticleData :=
  ⟨articleExcerpt blocks, jsCeilDiv (articleWordCount blocks) 200⟩

/-- One comic panel. -/
structure Panel where
  panelNumber : Nat
  imageUrl : String
  width : Nat
  height : Nat
  altText : String
  narration : Option String
deriving DecidableEq, Repr

/-- Image URL fallback chain
`block.image?.file?.url || block.image?.external?.url || ''`. -/
def imageUrlOf (media : Option PayloadData) : String :=
  match strTruthy (media.bind (fun m => m.file.map FileRef.url)) with
  | some u => u
  | none =>
    match strTruthy (media.bind (fun m => m.ext.map FileRef.url)) with
    | some u => u
    | none => ""

/-- Caption fallback chain
`block.image?.caption?.map(..).join('') || ''`. -/
def captionOf (media : Option PayloadData) : String :=
  match media.bind (fun m => m.caption) with
  | none => ""
  | some items => richJoin items

/-- Panel extraction loop of `transformToComicContent`: every image-type
block becomes a panel numbered consecutively from the counter, with fixed
width 800 and height 600, and narration taken from the immediately
following block when that block is a paragraph. -/
def comicPanelsAux : List NBlock → Nat → List Panel
  | [], _ => []
  | b :: rest, n =>
    if b.btype = "image" then
      let media := b.payload
      let narration : Option String :=
        match rest with
        | [] => none
        | nxt :: _ =>
          if nxt.btype = "paragraph" then
            (nxt.paragraphAccess.bind (fun p => p.rich_text)).map richJoin
          else none
      ⟨n, imageUrlOf media, 800, 600, captionOf media, narration⟩ ::
        comicPanelsAux rest (n + 1)
    else
      comicPanelsAux rest n

/-- Comic-specific derived fields. -/
structure ComicData where
  episodeNumber : Nat
  panels : List Panel
deriving DecidableEq, Repr

/-- Embedding of `transformToComicContent` (variant-specific fields). -/
def transformToComicContent (blocks : List NBlock) : ComicData :=
  ⟨1, comicPanelsAux blocks 1⟩

/-- Podcast-specific derived fields. -/
structure PodcastData where
  audioUrl : String
  transcript : String
deriving DecidableEq, Repr

/-- Audio URL of `transformToPodcastContent`:
`fileBlock.file?.file?.url || fileBlock.video?.file?.url || ''` for the
first file-or-video-type block. -/
def podcastAudioUrl (blocks : List NBlock) : String :=
  match blocks.find? (fun b => b.btype = "file" || b.btype = "video") with
  | none => ""
  | some fb =>
    let viaFile := (if fb.btype = "file" then fb.payload else none).bind
      (fun p => p.file.map FileRef.url)
    let viaVideo := (if fb.btype = "video" then fb.payload else none).bind
      (fun p => p.file.map FileRef.url)
    match strTruthy viaFile with
    | some u => u
    | none =>
      match strTruthy viaVideo with
      | some u => u
      | none => ""

/-- Transcript assembly of `transformToPodcastContent`: paragraph and
heading (1–3) blocks in order, headings rendered as markdown headers. -/
def podcastTranscript (blocks : List NBlock) : String :=
  String.intercalate "\n"
    ((blocks.filter (fun b =>
        b.btype = "paragraph" || b.btype = "heading_1" ||
        b.btype = "heading_2" || b.btype = "heading_3")).map (fun b =>
      if strStartsWith b.btype "heading_" then
        let text := match b.payload.bind (fun p => p.rich_text) with
          | none => ""
          | some items => richJoin items
        "\n## " ++ text ++ "\n"
      else paragraphText b))

/-- Embedding of `transformToPodcastContent` (variant-specific fields). -/
def transformToPodcastContent (blocks : List NBlock) : PodcastData :=
  ⟨podcastAudioUrl blocks, podcastTranscript blocks⟩

/-- Variant-specific part of a transformed content value. -/
inductive ContentData where
  | article (d : ArticleData)
  | comic (d : ComicData)
  | podcast (d : PodcastData)
deriving DecidableEq, Repr

/-- Dispatch of `transformNotionPageToContent`, parameterized by the
already-extracted `contentType` discriminator: unknown discriminators
fall back to the article transform. -/
def transformNotionPageToContent (contentType : String) (blocks : List NBlock) :
    ContentData :=
  match contentType with
  | "article" => .article (transformToArticleContent blocks)
  | "comic" => .comic (transformToComicContent blocks)
  | "podcast" => .podcast (transformToPodcastContent blocks)
  | _ => .article (transformToArticleContent blocks)

/-! ## Asset cache (`src/lib/image-cache.ts`) -/

/-- Environment capabilities of the cache: whether fetching a given URL
succeeds, and the md5 hex digest primitive used for URL-derived names. -/
structure CacheEnv where
  dl : String → Bool
  hashUrl : String → String

/-- Mutable state of an `ImageCache` instance plus the durable store: the
in-memory `imageMap` (original URL → local public path, most recent entry
first) and the set of file paths existing on disk. -/
structure CacheState where
  imageMap : List (String × String)
  disk : List String
deriving DecidableEq, Repr

/-- Lookup in the in-memory map (`Map.has`/`Map.get`). -/
def mapLookup (m : List (String × String)) (k : String) : Option String :=
  (m.find? (fun kv => kv.1 = k)).map (fun kv => kv.2)

/-- Scan a character list for the first occurrence of a separator and
return what follows it. -/
def dropThroughSep (sep : List Char) : List Char → Option (List Char)
  | [] => none
  | c :: rest =>
    if sep.isPrefixOf (c :: rest) then some ((c :: rest).drop sep.length)
    else dropThroughSep sep rest

/-- Pathname of `new URL(url)` for scheme://host/path URLs (query and
fragment stripped, a host with no path gives `/`); `none` models the
constructor throwing on an invalid URL. -/
def urlPathname (url : String) : Option String :=
  match dropThroughSep "://".data url.data with
  | none => none
  | some afterScheme =>
    let fromSlash := afterScheme.dropWhile (fun c => c ≠ '/')
    if fromSlash = [] then some "/"
    else some (fromSlash.takeWhile (fun c => c ≠ '?' && c ≠ '#')).asString

/-- Extension sniffing of `generateFilename`: a recognised suffix of the
URL's pathname (case-insensitive, returned lower-case), defaulting to
`.jpg` — also when the URL fails to parse. -/
def extOf (url : String) : String :=
  match urlPathname url with
  | none => ".jpg"
  | some pathname =>
    let lower := jsToLower pathname
    match [".jpg", ".jpeg", ".png", ".gif", ".webp", ".svg", ".m4a",
           ".mp3"].find? (fun e => strEndsWith lower e) with
    | some e => e
    | none => ".jpg"

/-- Embedding of `ImageCache.generateFilename`: the stable id when given
and truthy, otherwise the URL's md5 digest; plus the sniffed extension. -/
def generateFilename (env : CacheEnv) (url : String) (stableId : Option String) :
    String :=
  let name := match stableId with
    | some s => if s = "" then env.hashUrl url else s
    | none => env.hashUrl url
  name ++ extOf url

/-- Result of one `cacheImage` call: the returned value (`none` models the
`null` sentinel), the state afterwards, and how many download attempts and
on-disk existence checks the call performed. -/
structure CacheResult where
  res : Option String
  st : CacheState
  downloads : Nat
  existChecks : Nat
deriving DecidableEq, Repr

/-- Embedding of `ImageCache.cacheImage`: empty URL → `null`; in-memory
hit → mapped path; already-local URL → the URL itself; on-disk hit →
register and return; otherwise download (success registers map and disk,
failure returns `null` and leaves the state unchanged). -/
def cacheImage (env : CacheEnv) (st : CacheState) (url : String)
    (stableId : Option String) : CacheResult :=
  if url = "" then ⟨none, st, 0, 0⟩
  else
    match mapLookup st.imageMap url with
    | some p => ⟨some p, st, 0, 0⟩
    | none =>
      if strStartsWith url "/images/" then ⟨some url, st, 0, 0⟩
      else
        let filename := generateFilename env url stableId
        let filepath := "public/images/" ++ filename
        let publicPath := "/images/" ++ filename
        if st.disk.contains filepath then
          ⟨some publicPath, ⟨(url, publicPath) :: st.imageMap, st.disk⟩, 0, 1⟩
        else if env.dl url then
          ⟨some publicPath,
           ⟨(url, publicPath) :: st.imageMap, filepath :: st.disk⟩, 1, 1⟩
        else
          ⟨none, st, 1, 1⟩

/-- Media discriminators handled by `cacheBlockImages`. -/
def mediaTypes : List String := ["image", "audio", "video", "file"]

/-- Media branch of `cacheBlockImages` for one block: when the block is a
media type with a truthy payload URL, cache it and (on a truthy cached
result) replace the payload by the spread
`{ ...media, type: 'file', file: { url: cachedUrl } }`. Returns the
block's (possibly rewritten) payload and the state afterwards. -/
def mediaRewrite (env : CacheEnv) (st : CacheState) (b : NBlock) :
    Option PayloadData × CacheState :=
  if mediaTypes.contains b.btype then
    match b.payload with
    | none => (b.payload, st)
    | some media =>
      let turl := match strTruthy (media.file.map FileRef.url) with
        | some u => some u
        | none => strTruthy (media.ext.map FileRef.url)
      match turl with
      | none => (b.payload, st)
      | some url =>
        let r := cacheImage env st url (some b.bid)
        match strTruthy r.res with
        | none => (b.payload, r.st)
        | some cachedUrl =>
          (some ⟨some "file", media.rich_text, some ⟨cachedUrl⟩, media.ext,
                 media.caption⟩, r.st)
  else (b.payload, st)

mutual

/-- One iteration of the `cacheBlockImages` loop: apply the media branch,
then — only when `block.has_children` is set *and* the payload declares a
children list — rebuild the payload from the *original* payload object
with the recursively rewritten children (the source's second assignment
overwrites the media rewrite in that case). -/
def cacheBlockOne (env : CacheEnv) (st : CacheState) : NBlock → NBlock × CacheState
  | .mk i t hc payload children =>
    let m := mediaRewrite env st (.mk i t hc payload children)
    if hc then
      match payload, children with
      | some pd, some cs =>
        let r := cacheBlockImagesList env m.2 cs
        (.mk i t hc (some pd) (some r.1), r.2)
      | _, _ => (.mk i t hc m.1 children, m.2)
    else (.mk i t hc m.1 children, m.2)

/-- Embedding of `ImageCache.cacheBlockImages`: rebuild the block list in
order, threading the cache state left to right. -/
def cacheBlockImagesList (env : CacheEnv) (st : CacheState) :
    List NBlock → List NBlock × CacheState
  | [] => ([], st)
  | b :: bs =>
    let r1 := cacheBlockOne env st b
    let r2 := cacheBlockImagesList env r1.2 bs
    (r1.1 :: r2.1, r2.2)

end

/-! ## Content loader pagination (`src/lib/notion-loader.ts`, lines 36–90) -/

/-- One response page of a paginated endpoint. -/
structure PageResp (α : Type) where
  results : List α
  next_cursor : Option String
deriving DecidableEq, Repr

/-- JS `response.next_cursor || undefined`: `null` and the empty string
both end the loop. -/
def cursorOrUndef (c : Option String) : Option String :=
  match c with
  | none => none
  | some s => if s = "" then none else some s

/-- The do/while cursor loop shared by `fetchPageBlocks` and
`fetchAllPages`: query with the current cursor, append the results, and
continue while a truthy next cursor remains. Returns the accumulated
records together with the trace of cursors requested, in request order;
`fuel` bounds the number of requests (the source loops unboundedly). -/
def paginate {α : Type} (q : Option String → PageResp α) :
    Nat → Option String → List α × List (Option String)
  | 0, _ => ([], [])
  | fuel + 1, cursor =>
    let resp := q cursor
    match cursorOrUndef resp.next_cursor with
    | none => (resp.results, [cursor])
    | some c =>
      let r := paginate q fuel (some c)
      (resp.results ++ r.1, cursor :: r.2)

/-- Embedding of `NotionLoader.fetchPageBlocks`: run the cursor loop from
an undefined start cursor against the block-children endpoint. -/
def fetchPageBlocks {α : Type} (q : Option String → PageResp α) (fuel : Nat) :
    List α × List (Option String) :=
  paginate q fuel none

/-- Embedding of `NotionLoader.fetchAllPages`: answer from the static
page cache when present, otherwise run the same cursor loop against the
filtered database-query endpoint and fill the cache. -/
def fetchAllPages {α : Type} (pageCache : Option (List α))
    (q : Option String → PageResp α) (fuel : Nat) :
    List α × Option (List α) :=
  match pageCache with
  | some cached => (cached, some cached)
  | none =>
    let r := paginate q fuel none
    (r.1, some r.1)

/-! ## Backup system (`src/lib/backup-system.ts`, `saveIndividualContent`) -/

/-- Content item as the backup writer sees it. -/
structure BItem where
  contentType : String
  slug : String
  payload : String
deriving DecidableEq, Repr

/-- Key of the shared duplicate-slug counter: `` `${type}:${slug}` ``. -/
def slugKey (typ slug : String) : String :=
  typ ++ ":" ++ slug

/-- Inner loop of `saveIndividualContent` for one content type: compute
each item's filename (`slug.json`, or `slug-n.json` for the n-th duplicate
of a slug, n ≥ 2), record the write, and thread the shared counter map
(0 models an absent counter, which JS reads as falsy). -/
def saveTypeItems (dir typ : String) :
    List BItem → (String → Nat) → List (String × BItem) × (String → Nat)
  | [], counts => ([], counts)
  | item :: rest, counts =>
    let key := slugKey typ item.slug
    let seen := counts key
    let filename :=
      if seen ≠ 0 then item.slug ++ "-" ++ toString (seen + 1) ++ ".json"
      else item.slug ++ ".json"
    let counts1 : String → Nat := fun k =>
      if k = key then (if seen ≠ 0 then seen + 1 else 1) else counts k
    let r := saveTypeItems dir typ rest counts1
    ((dir ++ "/" ++ filename, item) :: r.1, r.2)

/-- Embedding of `BackupSystem.saveIndividualContent`: group the content
by type, then write the articles, comics and podcasts (in that fixed
order) into pluralized type directories, sharing one slug-counter map
across the three groups. Returns the sequence of writes in order. -/
def saveIndividualContent (content : List BItem) : List (String × BItem) :=
  let r1 := saveTypeItems "articles" "article"
    (content.filter (fun c => c.contentType = "article")) (fun _ => 0)
  let r2 := saveTypeItems "comics" "comic"
    (content.filter (fun c => c.contentType = "comic")) r1.2
  let r3 := saveTypeItems "podcasts" "podcast"
    (content.filter (fun c => c.contentType = "podcast")) r2.2
  r1.1 ++ r2.1 ++ r3.1

/-! ## Project lookup (`src/lib/notion-loader.ts`, `getByProject`) -/

/-- Fetched page as `getByProject` sees it: the `Project` multi-select
names (absent when the property or its `multi_select` field is falsy). -/
structure RawPageModel where
  pid : String
  projectNames : Option (List String)
deriving DecidableEq, Repr

/-- Tag normalization applied to each project name:
`item.name.toLowerCase().replace(/\s+/g, '-')`. -/
def normalizeTag (s : String) : String :=
  jsReplaceWsDash (jsToLower s)

/-- Filter predicate of `getByProject`: pages without a `multi_select`
are rejected; otherwise the normalized names must contain the lower-cased
query. -/
def projectMatches (projectSlug : String) (p : RawPageModel) : Bool :=
  match p.projectNames with
  | none => false
  | some names => (names.map normalizeTag).contains (jsToLower projectSlug)

/-- Embedding of `NotionLoader.getByProject`: keep the matching pages (in
order) and transform each one. -/
def getByProject {γ : Type} (tf : RawPageModel → γ) (pages : List RawPageModel)
    (projectSlug : String) : List γ :=
  (pages.filter (projectMatches projectSlug)).map tf

/-! ## Helper lemmas -/

/-- The block-list rewriting loop emits exactly one output block per input
block. -/
theorem cacheBlockImagesList_length (env : CacheEnv) (st : CacheState)
    (blocks : List NBlock) :
    (cacheBlockImagesList env st blocks).1.length = blocks.length := by
  induction blocks generalizing st with
  | nil => simp [cacheBlockImagesList]
  | cons b bs ih => simp [cacheBlockImagesList, ih]

/-- A block that is not a media type and whose payload declares no
children passes through `cacheBlockOne` unchanged, with the cache state
untouched. -/
theorem cacheBlockOne_untouched (env : CacheEnv) (st : CacheState) (b : NBlock)
    (hm : mediaTypes.contains b.btype = false)
    (hc : b.childrenAccess = none) :
    cacheBlockOne env st b = (b, st) := by
  cases b with
  | mk i t hcf payload children =>
    have hm2 : ¬ ((NBlock.mk i t hcf payload children).btype ∈ mediaTypes) := by
      simpa using hm
    have hmr : mediaRewrite env st (.mk i t hcf payload children) =
        (payload, st) := by
      simp [mediaRewrite, hm2, NBlock.payload]
    cases payload with
    | none =>
      cases hcf <;> simp [cacheBlockOne, hmr]
    | some pd =>
      have hcn : children = none := by
        simpa [NBlock.childrenAccess, NBlock.payload, NBlock.childrenField]
          using hc
      subst hcn
      cases hcf <;> simp [cacheBlockOne, hmr]

/-! ## Claim C10 -/

/-- C10: `cacheBlockImages` returns a list of the same length with blocks
in the same order (the output is produced pointwise from the input), and
any block that is not of an image/audio/video/file type and whose payload
declares no children is returned with all its fields unchanged; the input
tree itself is a value that is never mutated. -/
theorem c10_cacheBlockImages_frame (env : CacheEnv) (st : CacheState)
    (blocks : List NBlock) :
    (cacheBlockImagesList env st blocks).1.length = blocks.length ∧
    List.Forall₂ (fun bIn bOut =>
        mediaTypes.contains bIn.btype = false → bIn.childrenAccess = none →
        bOut = bIn)
      blocks (cacheBlockImagesList env st blocks).1 := by
  refine ⟨cacheBlockImagesList_length env st blocks, ?_⟩
  induction blocks generalizing st with
  | nil => simp [cacheBlockImagesList]
  | cons b bs ih =>
    simp only [cacheBlockImagesList]
    refine List.Forall₂.cons ?_ (ih _)
    intro hm hc
    rw [cacheBlockOne_untouched env st b hm hc]

/-- Witness for C10 at a concrete one-block list. -/
theorem c10_cacheBlockImages_frame_witness :
    (cacheBlockImagesList ⟨fun _ => true, fun _ => "h"⟩ ⟨[], []⟩
        [NBlock.mk "b" "paragraph" false none none]).1.length = 1 ∧
    List.Forall₂ (fun bIn bOut =>
        mediaTypes.contains bIn.btype = false → bIn.childrenAccess = none →
        bOut = bIn)
      [NBlock.mk "b" "paragraph" false none none]
      (cacheBlockImagesList ⟨fun _ => true, fun _ => "h"⟩ ⟨[], []⟩
        [NBlock.mk "b" "paragraph" false none none]).1 :=
  c10_cacheBlockImages_frame ⟨fun _ => true, fun _ => "h"⟩ ⟨[], []⟩
    [NBlock.mk "b" "paragraph" false none none]

/-! ## Claim C2 -/

/-- C2 counterexample: recursion into declared children does *not* happen
regardless of the remote has-children flag. The same block (a paragraph
declaring one image child whose URL is already in the cache map) keeps its
child's URL un-rewritten when `has_children` is false, while the variant
with `has_children` set gets the child rewritten to the cached local path
— so the flag gates the recursion, contradicting the claim. -/
theorem c2_children_flag_gates_recursion_cex :
    (cacheBlockImagesList ⟨fun _ => true, fun _ => "h"⟩
        ⟨[("http://e/x.png", "/images/cached.png")], []⟩
        [NBlock.mk "b1" "paragraph" false (some ⟨none, none, none, none, none⟩)
          (some [NBlock.mk "c1" "image" false
            (some ⟨some "file", none, none, some ⟨"http://e/x.png"⟩, none⟩)
            none])]).1.map
      (fun b => b.childrenAccess.map (fun cs => cs.map
        (fun c => c.payload.bind (fun p => p.file.map FileRef.url)))) =
      [some [none]] ∧
    (cacheBlockImagesList ⟨fun _ => true, fun _ => "h"⟩
        ⟨[("http://e/x.png", "/images/cached.png")], []⟩
        [NBlock.mk "b1" "paragraph" true (some ⟨none, none, none, none, none⟩)
          (some [NBlock.mk "c1" "image" false
            (some ⟨some "file", none, none, some ⟨"http://e/x.png"⟩, none⟩)
            none])]).1.map
      (fun b => b.childrenAccess.map (fun cs => cs.map
        (fun c => c.payload.bind (fun p => p.file.map FileRef.url)))) =
      [some [some "/images/cached.png"]] :=
  ⟨rfl, rfl⟩

/-- C2 amended: `cacheBlockImages` recurses into a block's declared
children list only when the block's remote has-children flag is set *and*
the payload declares children; in that case the children are rewritten
recursively (one output child per input child, in order, so structure and
order are preserved), while with the flag unset the declared children
list is passed through untouched. -/
theorem c2_children_recursion_amended (env : CacheEnv) (st : CacheState)
    (i t : String) (pd : PayloadData) (cs : List NBlock) :
    cacheBlockOne env st (.mk i t true (some pd) (some cs)) =
      (.mk i t true (some pd)
        (some (cacheBlockImagesList env
          (mediaRewrite env st (.mk i t true (some pd) (some cs))).2 cs).1),
       (cacheBlockImagesList env
          (mediaRewrite env st (.mk i t true (some pd) (some cs))).2 cs).2) ∧
    (cacheBlockImagesList env
        (mediaRewrite env st (.mk i t true (some pd) (some cs))).2 cs).1.length =
      cs.length ∧
    cacheBlockOne env st (.mk i t false (some pd) (some cs)) =
      (.mk i t false (mediaRewrite env st (.mk i t false (some pd) (some cs))).1
        (some cs),
       (mediaRewrite env st (.mk i t false (some pd) (some cs))).2) := by
  refine ⟨?_, cacheBlockImagesList_length env _ cs, ?_⟩ <;> simp [cacheBlockOne]

/-! ## Claim C4 -/

/-- C4 counterexample: for the empty URL, `cacheImage` returns the `null`
sentinel, not its input — so the call is a no-op on the state but the
returned value does not equal the input URL. -/
theorem c4_cacheImage_empty_cex :
    (cacheImage ⟨fun _ => true, fun _ => "h"⟩ ⟨[], []⟩ "" none).res = none ∧
    (cacheImage ⟨fun _ => true, fun _ => "h"⟩ ⟨[], []⟩ "" none).res ≠
      some "" := by
  constructor
  · rfl
  · intro h
    simp [cacheImage] at h

/-- C4 amended: for an empty URL `cacheImage` returns the `null` sentinel
(not the input), and for a URL that is already a recognized local path
(one starting with the local images prefix, hence never a key of the
in-memory map) it returns the input unchanged; in both cases no map
update, no on-disk existence check and no download occur. -/
theorem c4_cacheImage_noop_amended (env : CacheEnv) (st : CacheState)
    (url : String) (sid : Option String) :
    (url = "" → cacheImage env st url sid = ⟨none, st, 0, 0⟩) ∧
    (url ≠ "" → strStartsWith url "/images/" = true →
      mapLookup st.imageMap url = none →
      cacheImage env st url sid = ⟨some url, st, 0, 0⟩) := by
  constructor
  · intro h
    subst h
    simp [cacheImage]
  · intro hne hpre hmap
    simp [cacheImage, hne, hpre, hmap]

/-- Witness for C4's amended theorem at both concrete inputs. -/
theorem c4_cacheImage_noop_amended_witness :
    cacheImage ⟨fun _ => true, fun _ => "h"⟩ ⟨[], []⟩ "" none =
      ⟨none, ⟨[], []⟩, 0, 0⟩ ∧
    cacheImage ⟨fun _ => true, fun _ => "h"⟩ ⟨[], []⟩ "/images/x.png" none =
      ⟨some "/images/x.png", ⟨[], []⟩, 0, 0⟩ :=
  ⟨(c4_cacheImage_noop_amended ⟨fun _ => true, fun _ => "h"⟩ ⟨[], []⟩ ""
      none).1 rfl,
   (c4_cacheImage_noop_amended ⟨fun _ => true, fun _ => "h"⟩ ⟨[], []⟩
      "/images/x.png" none).2 (by decide) (by decide) rfl⟩

/-! ## Claim C1 -/

/-- C1 counterexample: when the first download attempt fails, a second
identical `cacheImage` call repeats the download attempt — two calls with
the same URL perform two download attempts and return the `null` sentinel
both times instead of a local path. -/
theorem c1_cacheImage_redownload_cex :
    (cacheImage ⟨fun _ => false, fun _ => "h"⟩ ⟨[], []⟩
        "http://example.com/a.png" none).downloads +
      (cacheImage ⟨fun _ => false, fun _ => "h"⟩
        (cacheImage ⟨fun _ => false, fun _ => "h"⟩ ⟨[], []⟩
          "http://example.com/a.png" none).st
        "http://example.com/a.png" none).downloads = 2 ∧
    (cacheImage ⟨fun _ => false, fun _ => "h"⟩ ⟨[], []⟩
        "http://example.com/a.png" none).res = none :=
  ⟨rfl, rfl⟩

/-- C1 amended: for a non-empty remote URL, provided the URL is already
cached in memory or on disk or its download succeeds when attempted, two
`cacheImage` calls with the same URL and stable id return the same local
path both times and perform at most one download in total, the second
call performing none; when the download fails, each call re-attempts it
(see the counterexample). -/
theorem c1_cacheImage_idempotent_amended (env : CacheEnv) (st : CacheState)
    (url : String) (sid : Option String)
    (hne : url ≠ "") (hloc : strStartsWith url "/images/" = false)
    (hok : env.dl url = true ∨ mapLookup st.imageMap url ≠ none ∨
      ("public/images/" ++ generateFilename env url sid) ∈ st.disk) :
    ∃ p, (cacheImage env st url sid).res = some p ∧
      (cacheImage env (cacheImage env st url sid).st url sid).res = some p ∧
      (cacheImage env st url sid).downloads +
        (cacheImage env (cacheImage env st url sid).st url sid).downloads ≤
          1 ∧
      (cacheImage env (cacheImage env st url sid).st url sid).downloads =
        0 := by
  have hloc2 : ¬ strStartsWith url "/images/" = true := by simp [hloc]
  have hself : mapLookup
      ((url, "/images/" ++ generateFilename env url sid) :: st.imageMap) url =
      some ("/images/" ++ generateFilename env url sid) := by
    simp [mapLookup]
  cases hm : mapLookup st.imageMap url with
  | some p =>
    have e1 : cacheImage env st url sid = ⟨some p, st, 0, 0⟩ := by
      simp [cacheImage, hne, hm]
    refine ⟨p, ?_, ?_, ?_, ?_⟩ <;> simp [e1]
  | none =>
    by_cases hd : ("public/images/" ++ generateFilename env url sid) ∈ st.disk
    · have e1 : cacheImage env st url sid =
          ⟨some ("/images/" ++ generateFilename env url sid),
           ⟨(url, "/images/" ++ generateFilename env url sid) :: st.imageMap,
            st.disk⟩, 0, 1⟩ := by
        simp [cacheImage, hne, hloc2, hm, hd]
      have e2 : cacheImage env
          ⟨(url, "/images/" ++ generateFilename env url sid) :: st.imageMap,
           st.disk⟩ url sid =
          ⟨some ("/images/" ++ generateFilename env url sid),
           ⟨(url, "/images/" ++ generateFilename env url sid) :: st.imageMap,
            st.disk⟩, 0, 0⟩ := by
        simp [cacheImage, hne, hself]
      refine ⟨"/images/" ++ generateFilename env url sid, ?_, ?_, ?_, ?_⟩ <;>
        simp [e1, e2]
    · have hdl : env.dl url = true := by
        rcases hok with h | h | h
        · exact h
        · exact absurd hm h
        · exact absurd h hd
      have e1 : cacheImage env st url sid =
          ⟨some ("/images/" ++ generateFilename env url sid),
           ⟨(url, "/images/" ++ generateFilename env url sid) :: st.imageMap,
            ("public/images/" ++ generateFilename env url sid) :: st.disk⟩,
           1, 1⟩ := by
        simp [cacheImage, hne, hloc2, hm, hd, hdl]
      have e2 : cacheImage env
          ⟨(url, "/images/" ++ generateFilename env url sid) :: st.imageMap,
           ("public/images/" ++ generateFilename env url sid) :: st.disk⟩
          url sid =
          ⟨some ("/images/" ++ generateFilename env url sid),
           ⟨(url, "/images/" ++ generateFilename env url sid) :: st.imageMap,
            ("public/images/" ++ generateFilename env url sid) :: st.disk⟩,
           0, 0⟩ := by
        simp [cacheImage, hne, hself]
      refine ⟨"/images/" ++ generateFilename env url sid, ?_, ?_, ?_, ?_⟩ <;>
        simp [e1, e2]

/-- Witness for C1's amended theorem: a cold cache with a succeeding
download environment. -/
theorem c1_cacheImage_idempotent_amended_witness :
    ∃ p, (cacheImage ⟨fun _ => true, fun _ => "h"⟩ ⟨[], []⟩
        "http://example.com/a.png" none).res = some p ∧
      (cacheImage ⟨fun _ => true, fun _ => "h"⟩
        (cacheImage ⟨fun _ => true, fun _ => "h"⟩ ⟨[], []⟩
          "http://example.com/a.png" none).st
        "http://example.com/a.png" none).res = some p ∧
      (cacheImage ⟨fun _ => true, fun _ => "h"⟩ ⟨[], []⟩
        "http://example.com/a.png" none).downloads +
        (cacheImage ⟨fun _ => true, fun _ => "h"⟩
          (cacheImage ⟨fun _ => true, fun _ => "h"⟩ ⟨[], []⟩
            "http://example.com/a.png" none).st
          "http://example.com/a.png" none).downloads ≤ 1 ∧
      (cacheImage ⟨fun _ => true, fun _ => "h"⟩
        (cacheImage ⟨fun _ => true, fun _ => "h"⟩ ⟨[], []⟩
          "http://example.com/a.png" none).st
        "http://example.com/a.png" none).downloads = 0 :=
  c1_cacheImage_idempotent_amended ⟨fun _ => true, fun _ => "h"⟩ ⟨[], []⟩
    "http://example.com/a.png" none (by decide) (by rfl) (Or.inl rfl)

/-! ## Claim C5 -/

/-- Simulated three-page endpoint: the first two responses carry a next
cursor, the third carries none. -/
def pagedEndpoint {α : Type} (p0 p1 p2 : List α) : Option String → PageResp α :=
  fun c =>
    match c with
    | none => ⟨p0, some "c1"⟩
    | some s =>
      if s = "c1" then ⟨p1, some "c2"⟩
      else if s = "c2" then ⟨p2, none⟩
      else ⟨[], none⟩

/-- C5: against a simulated paginated endpoint yielding pages of sizes
[3, 3, 1], the cursor loop of `fetchPageBlocks`/`fetchAllPages` returns
exactly the 7 records, equal to the concatenation of the three pages in
original order, and the trace of requested cursors shows each next cursor
requested only after the previous page was accumulated. -/
theorem c5_pagination_complete (α : Type) (p0 p1 p2 : List α)
    (h0 : p0.length = 3) (h1 : p1.length = 3) (h2 : p2.length = 1) :
    (fetchPageBlocks (pagedEndpoint p0 p1 p2) 3).1 = p0 ++ p1 ++ p2 ∧
    (fetchPageBlocks (pagedEndpoint p0 p1 p2) 3).1.length = 7 ∧
    (fetchPageBlocks (pagedEndpoint p0 p1 p2) 3).2 =
      [none, some "c1", some "c2"] ∧
    (fetchAllPages none (pagedEndpoint p0 p1 p2) 3).1 = p0 ++ p1 ++ p2 := by
  refine ⟨?_, ?_, ?_, ?_⟩ <;>
    simp [fetchPageBlocks, fetchAllPages, paginate, pagedEndpoint,
      cursorOrUndef, h0, h1, h2]

/-- Witness for C5 on concrete pages of sizes [3, 3, 1]. -/
theorem c5_pagination_complete_witness :
    (fetchPageBlocks (pagedEndpoint [1, 2, 3] [4, 5, 6] [7]) 3).1 =
      [1, 2, 3] ++ [4, 5, 6] ++ [7] ∧
    (fetchPageBlocks (pagedEndpoint [1, 2, 3] [4, 5, 6] [7]) 3).1.length = 7 ∧
    (fetchPageBlocks (pagedEndpoint [1, 2, 3] [4, 5, 6] [7]) 3).2 =
      [none, some "c1", some "c2"] ∧
    (fetchAllPages none (pagedEndpoint [1, 2, 3] [4, 5, 6] [7]) 3).1 =
      [1, 2, 3] ++ [4, 5, 6] ++ [7] :=
  c5_pagination_complete Nat [1, 2, 3] [4, 5, 6] [7] rfl rfl rfl

/-! ## Claim C9 -/

/-- C9: for every fetched page whose Project multi-select contains a tag
name, and every query string equal to that tag after lower-casing both
and collapsing the tag's whitespace runs to a single dash (the source's
normalization), `getByProject` includes that page's transformed content. -/
theorem c9_getByProject_normalized (γ : Type) (tf : RawPageModel → γ)
    (pages : List RawPageModel) (p : RawPageModel) (names : List String)
    (tag q : String) (hp : p ∈ pages) (hn : p.projectNames = some names)
    (ht : tag ∈ names) (hq : jsToLower q = normalizeTag tag) :
    tf p ∈ getByProject tf pages q := by
  unfold getByProject
  refine List.mem_map_of_mem tf (List.mem_filter.mpr ⟨hp, ?_⟩)
  simp only [projectMatches, hn]
  rw [List.contains_iff_exists_mem_beq]
  exact ⟨normalizeTag tag, List.mem_map_of_mem normalizeTag ht,
    by simp [hq]⟩

/-- Witness for C9: the tag `"My  Project"` and the query
`"MY-PROJECT"`. -/
theorem c9_getByProject_normalized_witness :
    RawPageModel.pid ⟨"p1", some ["My  Project"]⟩ ∈
      getByProject RawPageModel.pid [⟨"p1", some ["My  Project"]⟩]
        "MY-PROJECT" :=
  c9_getByProject_normalized String RawPageModel.pid
    [⟨"p1", some ["My  Project"]⟩] ⟨"p1", some ["My  Project"]⟩
    ["My  Project"] "My  Project" "MY-PROJECT" (by simp) rfl (by simp) rfl

/-! ## Claim C3 -/

/-- C3 counterexample: a malformed property bag with a truthy non-array
`rich_text` makes `extractRichText` throw a TypeError (JS:
`(1).map is not a function`) instead of returning the documented
default — the extractors are not total on malformed bags. -/
theorem c3_extractor_throws_cex :
    extractRichText (JsVal.jobj [("rich_text", JsVal.jnum 1)]) =
      .error "TypeError" := by
  rfl

/-- Member access on a truthy value never throws. -/
theorem getField_ok_of_truthy (v : JsVal) (k : String)
    (h : v.truthy = true) : ∃ w, v.getField k = .ok w := by
  cases v <;> simp_all [JsVal.truthy, JsVal.getField]

/-- C3 amended: every extractor returns its documented default (empty
string, empty sequence, zero, or none) on an absent (`undefined`/`null`)
property and on a property bag missing the expected field; date
extraction truncates a string date at the first `'T'` (calendar-date
granularity) and returns the empty string for an absent or falsy date;
and `extractSelect`/`extractNumber` never throw on any input. The
remaining extractors, however, can throw a TypeError on a truthy
wrongly-typed inner field (see the counterexample). -/
theorem c3_extractors_defaults_amended :
    (extractRichText .undef = .ok "" ∧ extractRichText .null = .ok "" ∧
      extractRichText (.jobj []) = .ok "") ∧
    (extractTitle .undef = .ok "" ∧ extractTitle .null = .ok "" ∧
      extractTitle (.jobj []) = .ok "") ∧
    (extractMultiSelect .undef = .ok [] ∧ extractMultiSelect .null = .ok [] ∧
      extractMultiSelect (.jobj []) = .ok []) ∧
    (extractSelect .undef = .ok (.jstr "") ∧
      extractSelect .null = .ok (.jstr "") ∧
      extractSelect (.jobj []) = .ok (.jstr "")) ∧
    (extractDate .undef = .ok "" ∧ extractDate .null = .ok "" ∧
      extractDate (.jobj []) = .ok "") ∧
    (extractNumber .undef = .ok (.jnum 0) ∧
      extractNumber .null = .ok (.jnum 0) ∧
      extractNumber (.jobj []) = .ok (.jnum 0)) ∧
    (extractFileUrl .undef = .ok none ∧ extractFileUrl .null = .ok none ∧
      extractFileUrl (.jobj []) = .ok none) ∧
    (∀ s : String,
      extractDate (.jobj [("date", .jobj [("start", .jstr s)])]) =
        .ok (s.data.takeWhile (fun c => c ≠ 'T')).asString) ∧
    (∀ p : JsVal, ∃ v, extractSelect p = .ok v) ∧
    (∀ p : JsVal, ∃ v, extractNumber p = .ok v) := by
  refine ⟨⟨rfl, rfl, rfl⟩, ⟨rfl, rfl, rfl⟩, ⟨rfl, rfl, rfl⟩,
    ⟨rfl, rfl, rfl⟩, ⟨rfl, rfl, rfl⟩, ⟨rfl, rfl, rfl⟩, ⟨rfl, rfl, rfl⟩,
    ?_, ?_, ?_⟩
  · intro s
    by_cases hs : s = ""
    · subst hs
      rfl
    · simp [extractDate, JsVal.truthy, JsVal.getField, hs]
  · intro p
    by_cases hp : p.truthy = true
    · obtain ⟨s, hs⟩ := getField_ok_of_truthy p "select" hp
      by_cases hstr : s.truthy = true
      · obtain ⟨nm, hnm⟩ := getField_ok_of_truthy s "name" hstr
        exact ⟨JsVal.jsOr nm (.jstr ""), by
          simp [extractSelect, hp, hs, hstr, hnm]⟩
      · exact ⟨.jstr "", by simp [extractSelect, hp, hs, hstr]⟩
    · exact ⟨.jstr "", by simp [extractSelect, hp]⟩
  · intro p
    by_cases hp : p.truthy = true
    · obtain ⟨n, hn⟩ := getField_ok_of_truthy p "number" hp
      cases n with
      | undef => exact ⟨.jnum 0, by simp [extractNumber, hp, hn]⟩
      | null => exact ⟨.jnum 0, by simp [extractNumber, hp, hn]⟩
      | jbool b => exact ⟨.jbool b, by simp [extractNumber, hp, hn]⟩
      | jnum k => exact ⟨.jnum k, by simp [extractNumber, hp, hn]⟩
      | jstr s => exact ⟨.jstr s, by simp [extractNumber, hp, hn]⟩
      | jarr xs => exact ⟨.jarr xs, by simp [extractNumber, hp, hn]⟩
      | jobj fs => exact ⟨.jobj fs, by simp [extractNumber, hp, hn]⟩
    · exact ⟨.jnum 0, by simp [extractNumber, hp]⟩

/-! ## Claim C6 -/

/-- Count of maximal whitespace runs remaining in the scan (flag true
when the scan is currently inside a run). -/
def wsRunsAux : Bool → List Char → Nat
  | _, [] => 0
  | true, c :: rest =>
    if jsIsWs c then wsRunsAux true rest else wsRunsAux false rest
  | false, c :: rest =>
    if jsIsWs c then 1 + wsRunsAux true rest else wsRunsAux false rest

/-- The JS whitespace split yields one segment more than there are
maximal whitespace runs (so an empty text still yields one segment). -/
theorem wsSplitAux_length (cs : List Char) : ∀ (flag : Bool) (cur : List Char),
    (wsSplitAux flag cs cur).length = wsRunsAux flag cs + 1 := by
  induction cs with
  | nil => intro flag cur; cases flag <;> simp [wsSplitAux, wsRunsAux]
  | cons c rest ih =>
    intro flag cur
    cases flag <;> by_cases h : jsIsWs c
    all_goals (simp [wsSplitAux, wsRunsAux, h, ih]; try omega)

/-- Segment count of the JS split of a string. -/
theorem wsSplit_length (s : String) :
    (wsSplit s).length = wsRunsAux false s.data + 1 := by
  simp [wsSplit, wsSplitAux_length]

/-- A fold accumulating `f` over a list equals the starting value plus
the sum of the mapped list. -/
theorem foldl_add_map {α : Type} (f : α → Nat) (l : List α) : ∀ c : Nat,
    l.foldl (fun acc b => acc + f b) c = c + (l.map f).sum := by
  induction l with
  | nil => intro c; simp
  | cons x xs ih =>
    intro c
    simp only [List.foldl_cons, List.map_cons, List.sum_cons, ih]
    omega

/-- Token counter following the claim's words: the number of
whitespace-delimited tokens of a text (empty segments do not count). -/
def specTokenCount (s : String) : Nat :=
  ((wsSplit s).filter (fun t => t ≠ "")).length

/-- Word count following the claim's words: the sum of whitespace-delimited
token counts over the text of all paragraph-type blocks. -/
def specArticleWordCount (blocks : List NBlock) : Nat :=
  ((blocks.filter (fun b => b.btype = "paragraph")).map
    (fun b => specTokenCount (paragraphText b))).sum

/-- C6 counterexample: one paragraph block with empty text has zero
whitespace-delimited tokens, so the claim's formula gives
`readingTime = ceil(0/200) = 0`, but the code computes
`"".split(/\s+/).length = 1` and returns `readingTime = 1`. -/
theorem c6_empty_paragraph_cex :
    transformToArticleContent
        [NBlock.mk "p1" "paragraph" false
          (some ⟨none, some [], none, none, none⟩) none] =
      ⟨"", 1⟩ ∧
    jsCeilDiv (specArticleWordCount
        [NBlock.mk "p1" "paragraph" false
          (some ⟨none, some [], none, none, none⟩) none]) 200 = 0 :=
  ⟨rfl, rfl⟩

/-- C6 amended: the article transform sets `excerpt` to the first 200
characters of the concatenated text of the first paragraph-type block
(empty string when none exists), and sets
`readingTime = ceil(S / 200)` where `S` sums, over all paragraph-type
blocks, the JS split-segment count of the block's text — one more than
the block's maximal-whitespace-run count, which exceeds the
whitespace-delimited token count exactly for empty text or text with
leading or trailing whitespace. -/
theorem c6_article_amended (blocks : List NBlock) :
    ((blocks.find? (fun b => b.btype = "paragraph") = none →
        (transformToArticleContent blocks).excerpt = "") ∧
     (∀ fp pd items,
        blocks.find? (fun b => b.btype = "paragraph") = some fp →
        fp.payload = some pd → pd.rich_text = some items →
        (transformToArticleContent blocks).excerpt =
          strTake (richJoin items) 200)) ∧
    (transformToArticleContent blocks).readingTime =
      jsCeilDiv (((blocks.filter (fun b => b.btype = "paragraph")).map
        (fun b => wsRunsAux false (paragraphText b).data + 1)).sum) 200 := by
  refine ⟨⟨?_, ?_⟩, ?_⟩
  · intro h
    simp [transformToArticleContent, articleExcerpt, h]
  · intro fp pd items hf hpd hit
    simp [transformToArticleContent, articleExcerpt, hf, hpd, hit]
  · simp only [transformToArticleContent, articleWordCount]
    rw [foldl_add_map]
    simp [wsSplit_length]

/-- Witness for C6's amended theorem on a concrete one-paragraph list. -/
theorem c6_article_amended_witness :
    (transformToArticleContent
        [NBlock.mk "p" "paragraph" false
          (some ⟨none, some [⟨some "hi"⟩], none, none, none⟩) none]).excerpt =
      strTake (richJoin [⟨some "hi"⟩]) 200 ∧
    (transformToArticleContent
        [NBlock.mk "p" "paragraph" false
          (some ⟨none, some [⟨some "hi"⟩], none, none, none⟩)
          none]).readingTime =
      jsCeilDiv ((([NBlock.mk "p" "paragraph" false
          (some ⟨none, some [⟨some "hi"⟩], none, none, none⟩)
          none].filter (fun b => b.btype = "paragraph")).map
        (fun b => wsRunsAux false (paragraphText b).data + 1)).sum) 200 :=
  ⟨(c6_article_amended
      [NBlock.mk "p" "paragraph" false
        (some ⟨none, some [⟨some "hi"⟩], none, none, none⟩) none]).1.2
    (NBlock.mk "p" "paragraph" false
      (some ⟨none, some [⟨some "hi"⟩], none, none, none⟩) none)
    ⟨none, some [⟨some "hi"⟩], none, none, none⟩ [⟨some "hi"⟩] rfl rfl rfl,
   (c6_article_amended
      [NBlock.mk "p" "paragraph" false
        (some ⟨none, some [⟨some "hi"⟩], none, none, none⟩) none]).2⟩

/-! ## Claim C7 -/

/-- Blocks that are not image-typed contribute no panels and are skipped
by the panel loop. -/
theorem comicPanelsAux_no_image (xs rest : List NBlock) (n : Nat)
    (h : ∀ b ∈ xs, b.btype ≠ "image") :
    comicPanelsAux (xs ++ rest) n = comicPanelsAux rest n := by
  induction xs with
  | nil => rfl
  | cons x xs ih =>
    have hx : ¬ x.btype = "image" := h x (by simp)
    simp only [List.cons_append, comicPanelsAux, if_neg hx]
    exact ih (fun b hb => h b (by simp [hb]))

/-- C7: a comic page whose block sequence contains exactly two image
blocks, each immediately followed by a paragraph block carrying rich
text, transforms into a comic with exactly two panels numbered 1 and 2
in order, each of width 800 and height 600, alt text from the image's
own caption, and narration equal to the text of the paragraph
immediately following that image. -/
theorem c7_comic_two_panels (xs ys zs : List NBlock)
    (img1 par1 img2 par2 : NBlock)
    (hxs : ∀ b ∈ xs, b.btype ≠ "image") (hys : ∀ b ∈ ys, b.btype ≠ "image")
    (hzs : ∀ b ∈ zs, b.btype ≠ "image")
    (hi1 : img1.btype = "image") (hi2 : img2.btype = "image")
    (hp1 : par1.btype = "paragraph") (hp2 : par2.btype = "paragraph")
    (pd1 pd2 : PayloadData) (rt1 rt2 : List RichItem)
    (hpd1 : par1.payload = some pd1) (hrt1 : pd1.rich_text = some rt1)
    (hpd2 : par2.payload = some pd2) (hrt2 : pd2.rich_text = some rt2) :
    transformNotionPageToContent "comic"
        (xs ++ img1 :: par1 :: (ys ++ img2 :: par2 :: zs)) =
      .comic ⟨1,
        [⟨1, imageUrlOf img1.payload, 800, 600, captionOf img1.payload,
          some (richJoin rt1)⟩,
         ⟨2, imageUrlOf img2.payload, 800, 600, captionOf img2.payload,
          some (richJoin rt2)⟩]⟩ := by
  have hpar1 : ¬ par1.btype = "image" := by simp [hp1]
  have hpar2 : ¬ par2.btype = "image" := by simp [hp2]
  have hstep : ∀ (img par : NBlock) (rest : List NBlock) (n : Nat),
      img.btype = "image" → par.btype = "paragraph" →
      ∀ pd rt, par.payload = some pd → pd.rich_text = some rt →
      comicPanelsAux (img :: par :: rest) n =
        ⟨n, imageUrlOf img.payload, 800, 600, captionOf img.payload,
          some (richJoin rt)⟩ :: comicPanelsAux (par :: rest) (n + 1) := by
    intro img par rest n hi hp pd rt hpd hrt
    simp [comicPanelsAux, hi, hp, NBlock.paragraphAccess, hpd, hrt]
  have hskip : ∀ (par : NBlock) (rest : List NBlock) (n : Nat),
      par.btype = "paragraph" →
      comicPanelsAux (par :: rest) n = comicPanelsAux rest n := by
    intro par rest n hp
    simp [comicPanelsAux, hp]
  have hz : comicPanelsAux zs 3 = [] := by
    have := comicPanelsAux_no_image zs [] 3 hzs
    simpa using this
  simp only [transformNotionPageToContent, transformToComicContent]
  rw [comicPanelsAux_no_image xs _ 1 hxs,
    hstep img1 par1 _ 1 hi1 hp1 pd1 rt1 hpd1 hrt1,
    hskip par1 _ 2 hp1,
    comicPanelsAux_no_image ys _ 2 hys,
    hstep img2 par2 _ 2 hi2 hp2 pd2 rt2 hpd2 hrt2,
    hskip par2 _ 3 hp2, hz]

/-- Witness for C7 on a concrete four-block comic. -/
theorem c7_comic_two_panels_witness :
    transformNotionPageToContent "comic"
        ([] ++ NBlock.mk "i1" "image" false
            (some ⟨some "file", none, some ⟨"u1"⟩, none, some [⟨some "cap1"⟩]⟩)
            none ::
          NBlock.mk "p1" "paragraph" false
            (some ⟨none, some [⟨some "narr1"⟩], none, none, none⟩) none ::
          ([] ++ NBlock.mk "i2" "image" false
              (some ⟨some "file", none, some ⟨"u2"⟩, none,
                some [⟨some "cap2"⟩]⟩) none ::
            NBlock.mk "p2" "paragraph" false
              (some ⟨none, some [⟨some "narr2"⟩], none, none, none⟩) none ::
            [])) =
      .comic ⟨1,
        [⟨1, imageUrlOf (NBlock.mk "i1" "image" false
            (some ⟨some "file", none, some ⟨"u1"⟩, none, some [⟨some "cap1"⟩]⟩)
            none).payload, 800, 600,
          captionOf (NBlock.mk "i1" "image" false
            (some ⟨some "file", none, some ⟨"u1"⟩, none, some [⟨some "cap1"⟩]⟩)
            none).payload, some (richJoin [⟨some "narr1"⟩])⟩,
         ⟨2, imageUrlOf (NBlock.mk "i2" "image" false
            (some ⟨some "file", none, some ⟨"u2"⟩, none, some [⟨some "cap2"⟩]⟩)
            none).payload, 800, 600,
          captionOf (NBlock.mk "i2" "image" false
            (some ⟨some "file", none, some ⟨"u2"⟩, none, some [⟨some "cap2"⟩]⟩)
            none).payload, some (richJoin [⟨some "narr2"⟩])⟩]⟩ :=
  c7_comic_two_panels [] [] []
    (NBlock.mk "i1" "image" false
      (some ⟨some "file", none, some ⟨"u1"⟩, none, some [⟨some "cap1"⟩]⟩) none)
    (NBlock.mk "p1" "paragraph" false
      (some ⟨none, some [⟨some "narr1"⟩], none, none, none⟩) none)
    (NBlock.mk "i2" "image" false
      (some ⟨some "file", none, some ⟨"u2"⟩, none, some [⟨some "cap2"⟩]⟩) none)
    (NBlock.mk "p2" "paragraph" false
      (some ⟨none, some [⟨some "narr2"⟩], none, none, none⟩) none)
    (by simp) (by simp) (by simp) rfl rfl rfl rfl
    ⟨none, some [⟨some "narr1"⟩], none, none, none⟩
    ⟨none, some [⟨some "narr2"⟩], none, none, none⟩
    [⟨some "narr1"⟩] [⟨some "narr2"⟩] rfl rfl rfl rfl

/-! ## Claim C8 -/

/-- Equality of strings follows from equality of their character data. -/
theorem stringDataEq {a b : String} (h : a.data = b.data) : a = b := by
  cases a
  cases b
  exact congrArg String.mk h

/-- The slug-counter key is injective in the slug for a fixed type tag. -/
theorem slugKey_inj (t : String) {s1 s2 : String}
    (h : slugKey t s1 = slugKey t s2) : s1 = s2 := by
  have h2 := congrArg String.data h
  simp only [slugKey] at h2
  rw [String.data_append (t ++ ":") s1, String.data_append (t ++ ":") s2]
    at h2
  exact stringDataEq (List.append_cancel_left h2)

/-- Article-phase counter keys never coincide with the comics key for
`ep1` (the type tag is baked into the key). -/
theorem articleKey_ne (x : String) :
    slugKey "article" x ≠ slugKey "comic" "ep1" := by
  intro h
  have h2 := congrArg String.data h
  simp only [slugKey] at h2
  rw [String.data_append ("article" ++ ":") x,
    String.data_append ("comic" ++ ":") "ep1"] at h2
  injection h2 with h1 _
  exact absurd h1 (by decide)

/-- Writing items whose keys differ from `k` leaves the counter at `k`
unchanged. -/
theorem saveTypeItems_counts_keep (dir typ : String) (items : List BItem)
    (counts : String → Nat) (k : String)
    (hk : ∀ item ∈ items, slugKey typ item.slug ≠ k) :
    (saveTypeItems dir typ items counts).2 k = counts k := by
  induction items generalizing counts with
  | nil => rfl
  | cons item rest ih =>
    have hne := hk item (List.mem_cons_self item rest)
    simp only [saveTypeItems]
    rw [ih _ (fun i hi => hk i (List.mem_cons_of_mem _ hi))]
    exact if_neg (fun h => hne h.symm)

/-- When the counter already records one occurrence of slug `s`, the
single remaining item with that slug is written to `s-2.json`. -/
theorem saveTypeItems_second (dir typ s : String) (b : BItem)
    (items : List BItem) (counts : String → Nat)
    (hf : items.filter (fun i => i.slug = s) = [b])
    (h1 : counts (slugKey typ s) = 1) :
    (dir ++ "/" ++ (s ++ "-2.json"), b) ∈
      (saveTypeItems dir typ items counts).1 := by
  induction items generalizing counts with
  | nil => simp at hf
  | cons item rest ih =>
    by_cases hs : item.slug = s
    · rw [List.filter_cons_of_pos (by simp [hs])] at hf
      injection hf with hb hrest
      simp only [saveTypeItems]
      refine List.mem_cons.mpr (Or.inl ?_)
      have hseen : counts (slugKey typ item.slug) = 1 := by
        rw [hs]
        exact h1
      have hone : ¬ (1 : Nat) = 0 := by decide
      have hfn : s ++ "-" ++ toString (1 + 1 : Nat) ++ ".json" =
          s ++ "-2.json" := by
        rw [String.append_assoc, String.append_assoc]
        exact rfl
      rw [hseen, hs, hb, if_pos hone, hfn]
    · rw [List.filter_cons_of_neg (by simp [hs])] at hf
      simp only [saveTypeItems]
      refine List.mem_cons.mpr (Or.inr ?_)
      refine ih _ hf ?_
      have hkey : slugKey typ s ≠ slugKey typ item.slug :=
        fun h => hs (slugKey_inj typ h.symm)
      simpa [if_neg hkey] using h1

/-- When the counter has no record of slug `s` yet and exactly the items
`a` then `b` carry that slug, they are written to `s.json` and
`s-2.json` respectively. -/
theorem saveTypeItems_two (dir typ s : String) (a b : BItem)
    (items : List BItem) (counts : String → Nat)
    (hf : items.filter (fun i => i.slug = s) = [a, b])
    (h0 : counts (slugKey typ s) = 0) :
    (dir ++ "/" ++ (s ++ ".json"), a) ∈
      (saveTypeItems dir typ items counts).1 ∧
    (dir ++ "/" ++ (s ++ "-2.json"), b) ∈
      (saveTypeItems dir typ items counts).1 := by
  induction items generalizing counts with
  | nil => simp at hf
  | cons item rest ih =>
    by_cases hs : item.slug = s
    · rw [List.filter_cons_of_pos (by simp [hs])] at hf
      injection hf with ha hrest
      have hseen : counts (slugKey typ item.slug) = 0 := by
        rw [hs]
        exact h0
      constructor
      · simp only [saveTypeItems]
        refine List.mem_cons.mpr (Or.inl ?_)
        have hzero : ¬ ¬ (0 : Nat) = 0 := by decide
        rw [hseen, hs, ha, if_neg hzero]
      · simp only [saveTypeItems]
        refine List.mem_cons.mpr (Or.inr ?_)
        refine saveTypeItems_second dir typ s b rest _ hrest ?_
        rw [hs] at hseen ⊢
        simp [hseen]
    · rw [List.filter_cons_of_neg (by simp [hs])] at hf
      have hkey : slugKey typ s ≠ slugKey typ item.slug :=
        fun h => hs (slugKey_inj typ h.symm)
      have h0s : (fun k =>
          if k = slugKey typ item.slug then
            (if counts (slugKey typ item.slug) ≠ 0 then
              counts (slugKey typ item.slug) + 1 else 1)
          else counts k) (slugKey typ s) = 0 := by
        simpa [if_neg hkey] using h0
      have hih := ih (fun k =>
          if k = slugKey typ item.slug then
            (if counts (slugKey typ item.slug) ≠ 0 then
              counts (slugKey typ item.slug) + 1 else 1)
          else counts k) hf h0s
      constructor
      · simp only [saveTypeItems]
        exact List.mem_cons.mpr (Or.inr hih.1)
      · simp only [saveTypeItems]
        exact List.mem_cons.mpr (Or.inr hih.2)

/-- C8: for every content collection whose comics contain exactly two
items with slug `"ep1"`, `saveIndividualContent` writes the first to
`comics/ep1.json` and the second to `comics/ep1-2.json`; the two paths
differ, so neither write overwrites the other, and the function is total
(no error is raised). -/
theorem c8_slug_collision (content : List BItem) (a b : BItem)
    (hf : ((content.filter (fun c => c.contentType = "comic")).filter
      (fun i => i.slug = "ep1")) = [a, b]) :
    ("comics/ep1.json", a) ∈ saveIndividualContent content ∧
    ("comics/ep1-2.json", b) ∈ saveIndividualContent content ∧
    ("comics/ep1.json" : String) ≠ "comics/ep1-2.json" := by
  have h0 : (saveTypeItems "articles" "article"
      (content.filter (fun c => c.contentType = "article"))
      (fun _ => 0)).2 (slugKey "comic" "ep1") = 0 := by
    rw [saveTypeItems_counts_keep]
    intro item _
    exact articleKey_ne item.slug
  have h2 := saveTypeItems_two "comics" "comic" "ep1" a b
    (content.filter (fun c => c.contentType = "comic")) _ hf h0
  refine ⟨?_, ?_, by decide⟩
  · simp only [saveIndividualContent]
    exact List.mem_append_left _ (List.mem_append_right _ h2.1)
  · simp only [saveIndividualContent]
    exact List.mem_append_left _ (List.mem_append_right _ h2.2)

/-- Witness for C8 on a four-item collection with two `ep1` comics. -/
theorem c8_slug_collision_witness :
    ("comics/ep1.json", (⟨"comic", "ep1", "first"⟩ : BItem)) ∈
      saveIndividualContent
        [⟨"article", "a", "x"⟩, ⟨"comic", "ep1", "first"⟩,
         ⟨"podcast", "p", "y"⟩, ⟨"comic", "ep1", "second"⟩] ∧
    ("comics/ep1-2.json", (⟨"comic", "ep1", "second"⟩ : BItem)) ∈
      saveIndividualContent
        [⟨"article", "a", "x"⟩, ⟨"comic", "ep1", "first"⟩,
         ⟨"podcast", "p", "y"⟩, ⟨"comic", "ep1", "second"⟩] ∧
    ("comics/ep1.json" : String) ≠ "comics/ep1-2.json" :=
  c8_slug_collision
    [⟨"article", "a", "x"⟩, ⟨"comic", "ep1", "first"⟩,
     ⟨"podcast", "p", "y"⟩, ⟨"comic", "ep1", "second"⟩]
    ⟨"comic", "ep1", "first"⟩ ⟨"comic", "ep1", "second"⟩ (by decide)

end Pipeline
